import Mathlib

/-!
Shallow embedding of `src/services/image_recognition_easyocr.py`.

The external OCR engine (`easyocr`) is modelled as an oracle: each call of
`reader.readtext` either returns a result list or raises an exception with a
message.  With `detail=0` the result is a list of recognized line strings;
with `detail=1` it is a list of regions `(bbox, text, confidence)`.
Confidence scores (Python floats) are modelled as rationals.
-/

/-- A detected region as returned by `readtext(path, detail=1)`:
a bounding box, the recognized text and a confidence score. -/
structure Region where
  bbox : List (Int × Int)
  text : String
  conf : ℚ
deriving DecidableEq, Repr

/-- Outcome of one call into the external engine: either a result value or a
raised exception carrying its message (`str(e)`). -/
inductive EngineOutcome (α : Type) where
  | ok (result : α)
  | exn (msg : String)
deriving DecidableEq, Repr

/-- Python `" ".join(l)`: the elements of `l` interleaved with single spaces. -/
def joinSpace : List String → String
  | [] => ""
  | [a] => a
  | a :: b :: t => a ++ " " ++ joinSpace (b :: t)

/-- `self.languages = languages if languages else ['en']` from
`ImageRecognitionService.__init__`; both `None` and the empty list are falsy. -/
def init_languages (languages : Option (List String)) : List String :=
  match languages with
  | none => ["en"]
  | some l => if l.isEmpty then ["en"] else l

/-- The engine handle `easyocr.Reader(self.languages)`, identified by the
language list it was constructed with. -/
structure Reader where
  langs : List String
deriving DecidableEq, Repr

/-- State of an `ImageRecognitionService` instance: its two fields. -/
structure ImageRecognitionService where
  languages : List String
  reader : Reader
deriving DecidableEq, Repr

/-- `ImageRecognitionService.__init__`. -/
def mkImageRecognitionService (languages : Option (List String)) :
    ImageRecognitionService :=
  let l := init_languages languages
  { languages := l, reader := { langs := l } }

/-- `ImageRecognitionService.detect_document`, as a function of the engine's
response to `self.reader.readtext(path, detail=0)`. -/
def detect_document (eng : EngineOutcome (List String)) : String × Option String :=
  match eng with
  | .ok result =>
      if result.isEmpty then ("", some "No text detected in the image")
      else (joinSpace result, none)
  | .exn e => ("", some ("Error processing image: " ++ e))

/-- `ImageRecognitionService.detect_document_with_confidence`, as a function of
the engine's response to `self.reader.readtext(path, detail=1)`. -/
def detect_document_with_confidence (eng : EngineOutcome (List Region)) :
    String × ℚ × Option String :=
  match eng with
  | .ok result =>
      if result.isEmpty then ("", 0, some "No text detected in the image")
      else
        let extracted_text := joinSpace (result.map Region.text)
        let confidences := result.map Region.conf
        let average_confidence :=
          if !confidences.isEmpty then confidences.sum / (confidences.length : ℚ)
          else 0
        (extracted_text, average_confidence, none)
  | .exn e => ("", 0, some ("Error processing image: " ++ e))

/-- Python `file_path.lower()`, modelled characterwise (ASCII case folding;
the paths in the claims are ASCII). -/
def lowerString (s : String) : String := String.mk (s.data.map Char.toLower)

/-- Python `s.endswith(t)`: the characters of `t` are a suffix of those of
`s`. -/
def endsWithStr (s t : String) : Bool := List.isSuffixOf t.data s.data

/-- The allow-list `supported_formats` from `is_supported_format`. -/
def supported_formats : List String :=
  [".jpg", ".jpeg", ".png", ".gif", ".bmp", ".webp", ".ico"]

/-- `ImageRecognitionService.is_supported_format`:
`any(file_path.lower().endswith(fmt) for fmt in supported_formats)`. -/
def is_supported_format (file_path : String) : Bool :=
  supported_formats.any (fun fmt => endsWithStr (lowerString file_path) fmt)

/-- The module-level function `detect_document(path)`.  The call
`easyocr.Reader(['en'])` happens before the `try` block, so an exception
raised there (first argument, the exception's message) propagates to the
caller, modelled as `Except.error`.  Otherwise the function returns a single
string: the captured stdout diagnostic (with the trailing newline added by
`print`) on the no-text and exception paths, or `extracted_text` itself on
the success path. -/
def detect_document_module (readerConstruction : Option String)
    (eng : EngineOutcome (List String)) : Except String String :=
  match readerConstruction with
  | some e => .error e
  | none =>
      match eng with
      | .ok result =>
          if result.isEmpty then .ok "No text detected in the image\n"
          else .ok (joinSpace result)
      | .exn e => .ok ("Error processing image: " ++ e ++ "\n")

/-- Method view of `detect_document`: the result together with the instance
state after the call (the body never assigns to `self`). -/
def detect_document_method (s : ImageRecognitionService)
    (eng : EngineOutcome (List String)) :
    (String × Option String) × ImageRecognitionService :=
  (detect_document eng, s)

/-- Method view of `detect_document_with_confidence`. -/
def detect_document_with_confidence_method (s : ImageRecognitionService)
    (eng : EngineOutcome (List Region)) :
    (String × ℚ × Option String) × ImageRecognitionService :=
  (detect_document_with_confidence eng, s)

/-- Method view of `is_supported_format`. -/
def is_supported_format_method (s : ImageRecognitionService) (path : String) :
    Bool × ImageRecognitionService :=
  (is_supported_format path, s)

/-- One public call on a service instance, with the engine's response to the
underlying `readtext` call recorded as data. -/
inductive ServiceCall where
  | detect (eng : EngineOutcome (List String))
  | detectWithConfidence (eng : EngineOutcome (List Region))
  | checkFormat (path : String)

/-- State of the instance after one public call. -/
def applyCall (s : ImageRecognitionService) : ServiceCall → ImageRecognitionService
  | .detect eng => (detect_document_method s eng).2
  | .detectWithConfidence eng => (detect_document_with_confidence_method s eng).2
  | .checkFormat p => (is_supported_format_method s p).2

/-- The regions an engine outcome delivers (none on an exception). -/
def engRegions : EngineOutcome (List Region) → List Region
  | .ok res => res
  | .exn _ => []

/-- Helper: a string with a single space in the middle is never empty. -/
lemma mid_space_ne_empty (a s : String) : a ++ " " ++ s ≠ "" := by
  intro hcontra
  have hl := congrArg String.length hcontra
  rw [String.length_append, String.length_append] at hl
  have h1 : (" " : String).length = 1 := rfl
  have h0 : ("" : String).length = 0 := rfl
  omega

/-- Helper: the formatted processing-error diagnostic is never empty. -/
lemma err_msg_ne_empty (e : String) :
    "Error processing image: " ++ e ++ "\n" ≠ "" := by
  intro hcontra
  have hl := congrArg String.length hcontra
  rw [String.length_append, String.length_append] at hl
  have h1 : ("\n" : String).length = 1 := rfl
  have h0 : ("" : String).length = 0 := rfl
  omega

/-- Helper: for a non-empty list, the space-join is empty exactly when the
list is the single empty string. -/
lemma joinSpace_eq_empty_iff (l : List String) (h : l ≠ []) :
    joinSpace l = "" ↔ l = [""] := by
  match l with
  | [a] => simp [joinSpace]
  | a :: b :: t =>
      constructor
      · intro hc
        exact absurd hc (mid_space_ne_empty a (joinSpace (b :: t)))
      · intro hc
        simp at hc

/-- Helper: no public method changes the instance state. -/
lemma applyCall_id (s : ImageRecognitionService) (c : ServiceCall) :
    applyCall s c = s := by
  cases c <;> rfl

/-- C1: when the engine returns a non-empty list of recognized line strings
and raises no exception, `detect_document` returns exactly the lines joined
with single spaces paired with `none` (no error). -/
theorem C1_detect_document_joins_lines (result : List String) (h : result ≠ []) :
    detect_document (.ok result) = (joinSpace result, none) := by
  simp [detect_document, h]

/-- C1 witness at a concrete engine result. -/
theorem C1_detect_document_joins_lines_witness :
    (["hello", "world"] : List String) ≠ [] ∧
      detect_document (.ok ["hello", "world"]) = ("hello world", none) :=
  ⟨by decide, C1_detect_document_joins_lines ["hello", "world"] (by decide)⟩

/-- C2: when the engine returns no detected regions and raises no exception,
`detect_document` returns exactly `("", some "No text detected in the image")`. -/
theorem C2_no_text_detected :
    detect_document (.ok []) = ("", some "No text detected in the image") := rfl

/-- C3 counterexample: an exception raised while the module-level
`detect_document` constructs its engine (before the `try` block) propagates
to the caller, contradicting the claim that no exception propagates. -/
theorem C3_counterexample_construction_propagates :
    detect_document_module (some "boom") (.ok ["hi"]) = .error "boom" := rfl

/-- C3 amended: every engine exception raised during `readtext` is caught by
the two service methods, which return empty text and a non-None error message
containing the original message; the module-level `detect_document` catches
exceptions raised inside its `try` block and returns the diagnostic string,
but an exception raised during its engine construction, which happens before
the `try` block, propagates to the caller. -/
theorem C3_amended_exception_handling :
    (∀ e, detect_document (.exn e) =
        ("", some ("Error processing image: " ++ e))) ∧
    (∀ e, detect_document_with_confidence (.exn e) =
        ("", 0, some ("Error processing image: " ++ e))) ∧
    (∀ e, detect_document_module none (.exn e) =
        .ok ("Error processing image: " ++ e ++ "\n")) ∧
    (∀ e eng, detect_document_module (some e) eng = .error e) :=
  ⟨fun _ => rfl, fun _ => rfl, fun _ => rfl, fun _ _ => rfl⟩

/-- C4: with no exception, `detect_document_with_confidence` returns
`("", 0, some err)` on an empty engine result, and otherwise the space-joined
region texts, the arithmetic mean of the per-region confidences, and no
error. -/
theorem C4_confidence_result (result : List Region) :
    detect_document_with_confidence (.ok result) =
      if result.isEmpty then ("", 0, some "No text detected in the image")
      else (joinSpace (result.map Region.text),
            (result.map Region.conf).sum / (result.length : ℚ), none) := by
  cases result with
  | nil => rfl
  | cons a t => simp [detect_document_with_confidence]

/-- C5: `is_supported_format` is true exactly when the lower-cased path ends
with one of the seven allow-listed suffixes; in particular it accepts
"a.PNG" and rejects "a.txt". -/
theorem C5_is_supported_format_characterisation (p : String) :
    (is_supported_format p =
      (endsWithStr (lowerString p) ".jpg" || endsWithStr (lowerString p) ".jpeg" ||
       endsWithStr (lowerString p) ".png" || endsWithStr (lowerString p) ".gif" ||
       endsWithStr (lowerString p) ".bmp" || endsWithStr (lowerString p) ".webp" ||
       endsWithStr (lowerString p) ".ico")) ∧
    is_supported_format "a.PNG" = true ∧ is_supported_format "a.txt" = false := by
  refine ⟨?_, by decide, by decide⟩
  simp [is_supported_format, supported_formats, Bool.or_assoc]

/-- C6: if every per-region confidence lies in [0,1], the confidence
component returned by `detect_document_with_confidence` lies in [0,1] on
every path (average, no-regions, exception). -/
theorem C6_confidence_in_unit_interval (eng : EngineOutcome (List Region))
    (h : ∀ r ∈ engRegions eng, 0 ≤ r.conf ∧ r.conf ≤ 1) :
    0 ≤ (detect_document_with_confidence eng).2.1 ∧
      (detect_document_with_confidence eng).2.1 ≤ 1 := by
  cases eng with
  | exn e => exact ⟨le_refl _, zero_le_one⟩
  | ok res =>
      cases res with
      | nil => exact ⟨le_refl _, zero_le_one⟩
      | cons a t =>
          have hmem : ∀ x ∈ (a :: t).map Region.conf, 0 ≤ x ∧ x ≤ 1 := by
            intro x hx
            obtain ⟨r, hr, rfl⟩ := List.mem_map.mp hx
            exact h r hr
          have hval : (detect_document_with_confidence (.ok (a :: t))).2.1 =
              ((a :: t).map Region.conf).sum /
                (((a :: t).map Region.conf).length : ℚ) := by
            simp [detect_document_with_confidence]
          have hlen : (0 : ℚ) < (((a :: t).map Region.conf).length : ℚ) := by
            simp only [List.length_map, List.length_cons]
            positivity
          have hsum0 : 0 ≤ ((a :: t).map Region.conf).sum :=
            List.sum_nonneg fun x hx => (hmem x hx).1
          have hsum1 : ((a :: t).map Region.conf).sum ≤
              (((a :: t).map Region.conf).length : ℚ) := by
            have hb := List.sum_le_card_nsmul ((a :: t).map Region.conf) 1
              fun x hx => (hmem x hx).2
            simpa using hb
          rw [hval]
          exact ⟨div_nonneg hsum0 hlen.le, (div_le_one hlen).mpr hsum1⟩

/-- C6 witness: a concrete one-region result with confidence one half. -/
theorem C6_confidence_in_unit_interval_witness :
    0 ≤ (detect_document_with_confidence (.ok [⟨[], "hi", (1 : ℚ)/2⟩])).2.1 ∧
      (detect_document_with_confidence (.ok [⟨[], "hi", (1 : ℚ)/2⟩])).2.1 ≤ 1 :=
  C6_confidence_in_unit_interval (.ok [⟨[], "hi", (1 : ℚ)/2⟩]) (by
    intro r hr
    simp only [engRegions, List.mem_singleton] at hr
    subst hr
    norm_num)

/-- C7 counterexample: when the engine returns the single recognized string
"" (a non-empty result list), `detect_document` returns empty text and no
error, so neither of {non-empty text} / {error present} holds, refuting
"exactly one". -/
theorem C7_counterexample_empty_line :
    (detect_document (.ok [""])).1 = "" ∧ (detect_document (.ok [""])).2 = none :=
  ⟨rfl, rfl⟩

/-- C7 amended: for both detection operations, at most one of {non-empty
text} / {error present} ever holds, and neither holds exactly when the
engine succeeds with a non-empty region list whose recognized strings join
to the empty string, i.e. the single recognized string ""; in every other
case exactly one holds. -/
theorem C7_amended_at_most_one (eng : EngineOutcome (List String))
    (engc : EngineOutcome (List Region)) :
    (¬ ((detect_document eng).1 ≠ "" ∧ (detect_document eng).2 ≠ none)) ∧
    (((detect_document eng).1 = "" ∧ (detect_document eng).2 = none) ↔
      eng = .ok [""]) ∧
    (¬ ((detect_document_with_confidence engc).1 ≠ "" ∧
        (detect_document_with_confidence engc).2.2 ≠ none)) ∧
    (((detect_document_with_confidence engc).1 = "" ∧
        (detect_document_with_confidence engc).2.2 = none) ↔
      ∃ res, engc = .ok res ∧ res.map Region.text = [""]) := by
  refine ⟨?_, ?_, ?_, ?_⟩
  · cases eng with
    | exn e => simp [detect_document]
    | ok res => cases res with
      | nil => simp [detect_document]
      | cons a t => simp [detect_document]
  · cases eng with
    | exn e => simp [detect_document]
    | ok res => cases res with
      | nil => simp [detect_document]
      | cons a t =>
          simpa [detect_document] using
            joinSpace_eq_empty_iff (a :: t) (List.cons_ne_nil a t)
  · cases engc with
    | exn e => simp [detect_document_with_confidence]
    | ok res => cases res with
      | nil => simp [detect_document_with_confidence]
      | cons a t => simp [detect_document_with_confidence]
  · cases engc with
    | exn e => simp [detect_document_with_confidence]
    | ok res => cases res with
      | nil => simp [detect_document_with_confidence]
      | cons a t =>
          simpa [detect_document_with_confidence] using
            joinSpace_eq_empty_iff ((a :: t).map Region.text) (by simp)

/-- C8: the module-level `detect_document` (engine construction succeeding)
returns one string: the diagnostic "Error processing image: <msg>\n" when
the engine raises inside the `try` block, the diagnostic
"No text detected in the image\n" when no text is detected, and the
space-joined text on success; the two diagnostic results are never the empty
string. -/
theorem C8_module_level_returns_string (eng : EngineOutcome (List String)) :
    (detect_document_module none eng =
      match eng with
      | .exn e => Except.ok ("Error processing image: " ++ e ++ "\n")
      | .ok result =>
          if result.isEmpty then Except.ok "No text detected in the image\n"
          else Except.ok (joinSpace result)) ∧
    (∀ e, detect_document_module none (.exn e) ≠ Except.ok "") ∧
    detect_document_module none (.ok []) ≠ Except.ok "" := by
  refine ⟨?_, ?_, ?_⟩
  · cases eng <;> rfl
  · intro e h
    simp only [detect_document_module, Except.ok.injEq] at h
    exact err_msg_ne_empty e h
  · intro h
    simp only [detect_document_module, List.isEmpty_nil, if_true,
      Except.ok.injEq] at h
    exact absurd h (by decide)

/-- C9: constructing the service with `None` or the empty language list
defaults `languages` to `["en"]`; any non-empty list is kept unchanged. -/
theorem C9_default_languages (l : List String) (h : l ≠ []) :
    (mkImageRecognitionService none).languages = ["en"] ∧
    (mkImageRecognitionService (some [])).languages = ["en"] ∧
    (mkImageRecognitionService (some l)).languages = l := by
  refine ⟨rfl, rfl, ?_⟩
  simp [mkImageRecognitionService, init_languages, h]

/-- C9 witness at the concrete non-empty language list ["fr", "en"]. -/
theorem C9_default_languages_witness :
    (["fr", "en"] : List String) ≠ [] ∧
      ((mkImageRecognitionService none).languages = ["en"] ∧
       (mkImageRecognitionService (some [])).languages = ["en"] ∧
       (mkImageRecognitionService (some ["fr", "en"])).languages = ["fr", "en"]) :=
  ⟨by decide, C9_default_languages ["fr", "en"] (by decide)⟩

/-- C10: no sequence of public calls (detection with or without confidence,
format checks) changes the instance state: both fields `languages` and
`reader` are exactly as set at construction time. -/
theorem C10_state_unchanged (s : ImageRecognitionService)
    (calls : List ServiceCall) :
    List.foldl applyCall s calls = s ∧
    (List.foldl applyCall s calls).languages = s.languages ∧
    (List.foldl applyCall s calls).reader = s.reader := by
  have h : List.foldl applyCall s calls = s := by
    induction calls with
    | nil => rfl
    | cons c t ih =>
        rw [List.foldl_cons, applyCall_id]
        exact ih
  exact ⟨h, by rw [h], by rw [h]⟩
